import Mathlib

/-!
Shallow embedding of `eventbus.go` (package eventbus, repository
dozyio/go-event-bus).

The Go `EventBus` owns

* `subscribers map[string][]chan any` — the registry, a map from topic
  name to the ordered slice of subscriber channels;
* `closed bool` — shutdown flag, set once by `Close`;
* `quitCh chan struct{}` — one-shot broadcast signal, closed once by `Close`;
* `wg sync.WaitGroup` — counter of in-flight async deliveries (used only
  by `Close` phase 2, a blocking wait; it never changes registry state).

Embedding choices, all traceable to the source:

* A channel value `chan any` is identified by its identity; we model a
  channel as a natural-number id `Chan`.  The bus carries `nextCh`, the
  next fresh id, incremented whenever the Go code executes
  `make(chan any)` (`Subscribe` line 36 does so unconditionally, before
  the closed-check).
* "the channel has been closed" (Go `close(ch)`) is membership of the id
  in the `chanClosed` list.
* The Go map is modelled as an association list with unique keys in
  insertion order; `m[topic]` on a missing key yields the empty list,
  exactly like a nil slice in Go.  `Topics` returns the key list; the
  claims only inspect membership and emptiness, which are independent of
  Go's unspecified map iteration order.
* `close(bus.quitCh)` is counted by `quitFireCount` so that "the shutdown
  signal is fired exactly once" is statable.
* The operations are sequential (each runs under the bus lock or on a
  lock-protected snapshot); blocking sends and goroutine scheduling have
  no registry effect and are represented by the returned
  started-task/attempted lists.  Sends that panic because a subscriber
  channel was closed concurrently (the race `PublishSync` recovers from,
  source lines 110–117) are modelled by an oracle `fails : Chan → Bool`
  saying which channel a send panics on.
* `Publish` and `PublishSync` only read the registry (lines 68–123 never
  write `bus.subscribers` or `bus.closed`); the embedding returns the bus
  unchanged, which makes "state unchanged" provable rather than assumed.
-/

/-- A subscriber channel (`chan any` in Go), identified by identity. -/
abbrev Chan := Nat

/-- The registry type: `map[string][]chan any` as an insertion-ordered
association list with unique keys. -/
abbrev Registry := List (String × List Chan)

/-- Read `m[topic]` as an `Option`: `some` iff the key is present. -/
def lookupTopic : Registry → String → Option (List Chan)
  | [], _ => none
  | (t, chs) :: rest, T => if t = T then some chs else lookupTopic rest T

/-- Go map indexing `m[topic]`: a missing key reads as the empty (nil) slice. -/
def getTopic (m : Registry) (T : String) : List Chan :=
  (lookupTopic m T).getD []

/-- Go map assignment `m[topic] = v`: replace the value at the key if
present, otherwise append a new key at the end. -/
def setTopic : Registry → String → List Chan → Registry
  | [], T, v => [(T, v)]
  | (t, chs) :: rest, T, v =>
      if t = T then (T, v) :: rest else (t, chs) :: setTopic rest T v

/-- All channels present anywhere in the registry. -/
def registryChans : Registry → List Chan
  | [] => []
  | (_, chs) :: rest => chs ++ registryChans rest

/-- `slices.Delete(subs, i, i+1)` at the index of the first match, as in
the `Unsubscribe` loop (source lines 55–60): remove the first occurrence
of `ch`, preserving the order of the remainder. -/
def removeFirst : List Chan → Chan → List Chan
  | [], _ => []
  | c :: rest, ch => if c = ch then rest else c :: removeFirst rest ch

/-- The bus state (`EventBus` struct, source lines 14–20).  `wg` is a
blocking-only synchronisation object with no registry effect and is not
part of the state; `quitCh` is represented by `quitFireCount`. -/
structure EventBus where
  subscribers : Registry
  closed : Bool
  quitFireCount : Nat
  nextCh : Chan
  chanClosed : List Chan
deriving Repr, DecidableEq

/-- `NewEventBus` (source lines 26–31): empty registry, open bus, quit
signal armed and never fired. -/
def NewEventBus : EventBus :=
  { subscribers := [], closed := false, quitFireCount := 0,
    nextCh := 0, chanClosed := [] }

namespace EventBus

/-- Subscribers of a topic, `bus.subscribers[topic]` (nil slice = `[]`). -/
def subsOf (bus : EventBus) (T : String) : List Chan :=
  getTopic bus.subscribers T

/-- `Subscribe` (source lines 35–46): make a fresh channel; if the bus is
closed, close that channel and return it without touching the registry;
otherwise append it to the topic's slice (creating the key if absent). -/
def Subscribe (bus : EventBus) (T : String) : Chan × EventBus :=
  let ch := bus.nextCh
  if bus.closed then
    (ch, { bus with nextCh := bus.nextCh + 1, chanClosed := ch :: bus.chanClosed })
  else
    (ch, { bus with nextCh := bus.nextCh + 1,
                    subscribers := setTopic bus.subscribers T (bus.subsOf T ++ [ch]) })

/-- `Unsubscribe` (source lines 50–62): scan the topic's slice for the
channel by identity; if found, delete it (first match only, `break`) and
close it; otherwise do nothing. -/
def Unsubscribe (bus : EventBus) (T : String) (ch : Chan) : EventBus :=
  if ch ∈ bus.subsOf T then
    { bus with subscribers := setTopic bus.subscribers T (removeFirst (bus.subsOf T) ch),
               chanClosed := ch :: bus.chanClosed }
  else bus

/-- `Publish` (source lines 68–92): if closed, return at once; otherwise
snapshot the topic's slice and start one delivery goroutine per
subscriber.  The second component lists the started delivery tasks, one
`(channel, payload)` pair per goroutine, in snapshot order; the bus state
is returned unchanged, as the Go code never writes it. -/
def Publish {α : Type} (bus : EventBus) (T : String) (data : α) :
    EventBus × List (Chan × α) :=
  if bus.closed then (bus, [])
  else (bus, (bus.subsOf T).map (fun ch => (ch, data)))

end EventBus

/-- Result of `PublishSync` (source lines 99–123): `nil`, `ErrBusClosed`,
or the aggregate `fmt.Errorf("PublishSync: %d error(s); first: %v", len(errs), errs[0])`,
carrying the failure count and the first recorded failure (identified by
the failing subscriber's position `i` in the snapshot, as in
`fmt.Errorf("subscriber %d panic: %v", i, r)`). -/
inductive SyncResult where
  | ok
  | busClosed
  | aggregate (count : Nat) (firstIdx : Nat)
deriving Repr, DecidableEq

/-- The error-accumulation loop of `PublishSync` (source lines 108–118),
started at index `i`: attempt each subscriber in order; a send that
panics (oracle `fails`) is recovered and recorded as the subscriber's
position; the loop always continues to the rest. -/
def publishSyncErrs (i : Nat) (subs : List Chan) (fails : Chan → Bool) : List Nat :=
  match subs with
  | [] => []
  | ch :: rest =>
      if fails ch then i :: publishSyncErrs (i + 1) rest fails
      else publishSyncErrs (i + 1) rest fails

namespace EventBus

/-- `PublishSync` (source lines 99–123): if closed, return `ErrBusClosed`
without attempting anything; otherwise snapshot the topic's slice,
attempt every subscriber in order recovering each panic into `errs`, and
return `nil` if `errs` is empty, else the aggregate error built from
`len(errs)` and `errs[0]`.  The last component lists the channels whose
send was attempted, in order; the bus state is returned unchanged, as the
Go code never writes it. -/
def PublishSync (bus : EventBus) (T : String) (fails : Chan → Bool) :
    EventBus × SyncResult × List Chan :=
  if bus.closed then (bus, .busClosed, [])
  else
    let subs := bus.subsOf T
    match publishSyncErrs 0 subs fails with
    | [] => (bus, .ok, subs)
    | e :: rest => (bus, .aggregate (e :: rest).length e, subs)

/-- `Close` (source lines 129–151): if already closed, return unchanged.
Otherwise set `closed`, fire the quit signal (phase 1), wait for the
in-flight deliveries to drain (phase 2 — a pure wait, no state change),
then close every remaining subscriber channel and delete every key
(phase 3). -/
def Close (bus : EventBus) : EventBus :=
  if bus.closed then bus
  else
    { bus with closed := true,
               quitFireCount := bus.quitFireCount + 1,
               chanClosed := registryChans bus.subscribers ++ bus.chanClosed,
               subscribers := [] }

/-- `Topics` (source lines 154–163): the list of keys currently in the
registry, zero-subscriber topics included. -/
def Topics (bus : EventBus) : List String :=
  bus.subscribers.map Prod.fst

/-- `SubscriberCount` (source lines 166–170): `len(bus.subscribers[topic])`,
0 when the key is absent. -/
def SubscriberCount (bus : EventBus) (T : String) : Nat :=
  (bus.subsOf T).length

end EventBus

/-- One public operation of the bus, for stating lifetime invariants over
call traces.  `publishSync` carries the panic oracle of that call. -/
inductive Op where
  | subscribe (topic : String)
  | unsubscribe (topic : String) (ch : Chan)
  | publish (topic : String)
  | publishSync (topic : String) (fails : Chan → Bool)
  | close

/-- The state reached after one operation (return values discarded). -/
def stepOp (bus : EventBus) : Op → EventBus
  | .subscribe T => (bus.Subscribe T).2
  | .unsubscribe T ch => bus.Unsubscribe T ch
  | .publish T => (bus.Publish T ()).1
  | .publishSync T fails => (bus.PublishSync T fails).1
  | .close => bus.Close

/-- The state reached after a sequence of operations. -/
def applyOps (bus : EventBus) (ops : List Op) : EventBus :=
  ops.foldl stepOp bus

/-- Does a bus operation mark the `Close` call?  Used to state lifetime
properties that hold between `Subscribe` and `Close`. -/
def Op.isClose : Op → Bool
  | .close => true
  | _ => false

/- ### Registry lemmas -/

theorem lookupTopic_setTopic_self (m : Registry) (T : String) (v : List Chan) :
    lookupTopic (setTopic m T v) T = some v := by
  induction m with
  | nil => simp [setTopic, lookupTopic]
  | cons p rest ih =>
    obtain ⟨t, chs⟩ := p
    by_cases h : t = T
    · simp [setTopic, h, lookupTopic]
    · simp [setTopic, h, lookupTopic, ih]

theorem getTopic_setTopic_self (m : Registry) (T : String) (v : List Chan) :
    getTopic (setTopic m T v) T = v := by
  simp [getTopic, lookupTopic_setTopic_self]

theorem mem_keys_setTopic_self (m : Registry) (T : String) (v : List Chan) :
    T ∈ (setTopic m T v).map Prod.fst := by
  induction m with
  | nil => simp [setTopic]
  | cons p rest ih =>
    obtain ⟨t, chs⟩ := p
    by_cases h : t = T
    · simp [setTopic, h]
    · simp only [setTopic, if_neg h, List.map_cons, List.mem_cons]
      exact Or.inr ih

theorem mem_keys_setTopic_of_mem {m : Registry} {t : String} (T : String)
    (v : List Chan) (h : t ∈ m.map Prod.fst) :
    t ∈ (setTopic m T v).map Prod.fst := by
  induction m with
  | nil => simp at h
  | cons p rest ih =>
    obtain ⟨t2, chs⟩ := p
    by_cases h2 : t2 = T
    · simp only [setTopic, if_pos h2, List.map_cons, List.mem_cons]
      simp only [List.map_cons, List.mem_cons] at h
      rcases h with h | h
      · exact Or.inl (h.trans h2)
      · exact Or.inr h
    · simp only [setTopic, if_neg h2, List.map_cons, List.mem_cons]
      simp only [List.map_cons, List.mem_cons] at h
      rcases h with h | h
      · exact Or.inl h
      · exact Or.inr (ih h)

theorem mem_registryChans_of_lookup {m : Registry} {T : String} {v : List Chan}
    {x : Chan} (h : lookupTopic m T = some v) (hx : x ∈ v) :
    x ∈ registryChans m := by
  induction m with
  | nil => simp [lookupTopic] at h
  | cons p rest ih =>
    obtain ⟨t, chs⟩ := p
    simp only [lookupTopic] at h
    by_cases h2 : t = T
    · rw [if_pos h2] at h
      cases h
      exact List.mem_append_left _ hx
    · rw [if_neg h2] at h
      exact List.mem_append_right _ (ih h)

theorem mem_registryChans_of_getTopic {m : Registry} {T : String} {x : Chan}
    (hx : x ∈ getTopic m T) : x ∈ registryChans m := by
  unfold getTopic at hx
  cases h : lookupTopic m T with
  | none => rw [h] at hx; simp at hx
  | some v => rw [h] at hx; exact mem_registryChans_of_lookup h hx

theorem mem_of_mem_registryChans_setTopic {m : Registry} {T : String}
    {v : List Chan} {x : Chan} (h : x ∈ registryChans (setTopic m T v)) :
    x ∈ v ∨ x ∈ registryChans m := by
  induction m with
  | nil => simpa [setTopic, registryChans] using h
  | cons p rest ih =>
    obtain ⟨t, chs⟩ := p
    by_cases h2 : t = T
    · simp only [setTopic, if_pos h2, registryChans, List.mem_append] at h
      rcases h with h | h
      · exact Or.inl h
      · exact Or.inr (List.mem_append_right _ h)
    · simp only [setTopic, if_neg h2, registryChans, List.mem_append] at h
      rcases h with h | h
      · exact Or.inr (List.mem_append_left _ h)
      · rcases ih h with h | h
        · exact Or.inl h
        · exact Or.inr (List.mem_append_right _ h)

/- ### removeFirst lemmas -/

theorem mem_of_mem_removeFirst {l : List Chan} {ch x : Chan}
    (h : x ∈ removeFirst l ch) : x ∈ l := by
  induction l with
  | nil => simp [removeFirst] at h
  | cons c rest ih =>
    simp only [removeFirst] at h
    by_cases h2 : c = ch
    · rw [if_pos h2] at h
      exact List.mem_cons_of_mem _ h
    · rw [if_neg h2] at h
      rcases List.mem_cons.mp h with h | h
      · exact h ▸ List.mem_cons_self _ _
      · exact List.mem_cons_of_mem _ (ih h)

theorem removeFirst_append {l1 l2 : List Chan} {ch : Chan} (h : ch ∉ l1) :
    removeFirst (l1 ++ ch :: l2) ch = l1 ++ l2 := by
  induction l1 with
  | nil => simp [removeFirst]
  | cons c rest ih =>
    have hc : c ≠ ch := fun he => h (he ▸ List.mem_cons_self _ _)
    have hrest : ch ∉ rest := fun hm => h (List.mem_cons_of_mem _ hm)
    simp [removeFirst, hc, ih hrest]

theorem not_mem_removeFirst {l : List Chan} {ch : Chan}
    (h : l.count ch ≤ 1) : ch ∉ removeFirst l ch := by
  induction l with
  | nil => simp [removeFirst]
  | cons c rest ih =>
    rw [List.count_cons] at h
    by_cases h2 : c = ch
    · simp only [removeFirst, if_pos h2]
      simp only [h2, beq_self_eq_true, if_true] at h
      have h0 : rest.count ch = 0 := by omega
      exact List.count_eq_zero.mp h0
    · have hbe : (c == ch) = false := by simp [h2]
      rw [hbe] at h
      simp only [removeFirst, if_neg h2, List.mem_cons]
      push_neg
      exact ⟨fun he => h2 he.symm, ih (by omega)⟩

/- ### publishSyncErrs and PublishSync lemmas -/

theorem publishSyncErrs_eq_enumFrom (fails : Chan → Bool) (subs : List Chan)
    (i : Nat) :
    publishSyncErrs i subs fails
      = ((subs.enumFrom i).filter (fun p => fails p.2)).map Prod.fst := by
  induction subs generalizing i with
  | nil => simp [publishSyncErrs]
  | cons ch rest ih =>
    by_cases h : fails ch
    · simp [publishSyncErrs, h, List.enumFrom, List.filter, ih]
    · simp [publishSyncErrs, h, List.enumFrom, List.filter, ih]

theorem publishSync_fst (bus : EventBus) (T : String) (fails : Chan → Bool) :
    (bus.PublishSync T fails).1 = bus := by
  unfold EventBus.PublishSync
  split
  · rfl
  · dsimp only
    split <;> rfl

theorem publishSync_closed {bus : EventBus} (T : String) (fails : Chan → Bool)
    (h : bus.closed = true) :
    bus.PublishSync T fails = (bus, SyncResult.busClosed, []) := by
  simp [EventBus.PublishSync, h]

theorem publishSync_open {bus : EventBus} (T : String) (fails : Chan → Bool)
    (h : bus.closed = false) :
    bus.PublishSync T fails
      = match publishSyncErrs 0 (bus.subsOf T) fails with
        | [] => (bus, SyncResult.ok, bus.subsOf T)
        | e :: rest => (bus, SyncResult.aggregate (e :: rest).length e, bus.subsOf T) := by
  unfold EventBus.PublishSync
  rw [if_neg (by simp [h])]

theorem publishSync_attempted {bus : EventBus} (T : String) (fails : Chan → Bool)
    (h : bus.closed = false) :
    (bus.PublishSync T fails).2.2 = bus.subsOf T := by
  cases herrs : publishSyncErrs 0 (bus.subsOf T) fails with
  | nil => rw [publishSync_open T fails h, herrs]
  | cons e rest => rw [publishSync_open T fails h, herrs]

theorem publishSync_result_ok {bus : EventBus} {T : String} {fails : Chan → Bool}
    (h : bus.closed = false)
    (herrs : publishSyncErrs 0 (bus.subsOf T) fails = []) :
    (bus.PublishSync T fails).2.1 = SyncResult.ok := by
  rw [publishSync_open T fails h, herrs]

theorem publishSync_result_aggregate {bus : EventBus} {T : String}
    {fails : Chan → Bool} {e : Nat} {rest : List Nat}
    (h : bus.closed = false)
    (herrs : publishSyncErrs 0 (bus.subsOf T) fails = e :: rest) :
    (bus.PublishSync T fails).2.1 = SyncResult.aggregate (e :: rest).length e := by
  rw [publishSync_open T fails h, herrs]

theorem publishSync_ne_busClosed {bus : EventBus} (T : String)
    (fails : Chan → Bool) (h : bus.closed = false) :
    (bus.PublishSync T fails).2.1 ≠ SyncResult.busClosed := by
  cases herrs : publishSyncErrs 0 (bus.subsOf T) fails with
  | nil => rw [publishSync_result_ok h herrs]; intro hc; cases hc
  | cons e rest => rw [publishSync_result_aggregate h herrs]; intro hc; cases hc

theorem publish_fst {α : Type} (bus : EventBus) (T : String) (data : α) :
    (bus.Publish T data).1 = bus := by
  unfold EventBus.Publish
  split <;> rfl

/- ### Branch characterizations of Subscribe, Unsubscribe and Close -/

theorem subscribe_fst (bus : EventBus) (T : String) :
    (bus.Subscribe T).1 = bus.nextCh := by
  by_cases h : bus.closed = true
  · simp [EventBus.Subscribe, h]
  · simp [EventBus.Subscribe, h]

theorem subscribe_snd_closed {bus : EventBus} (T : String)
    (h : bus.closed = true) :
    (bus.Subscribe T).2
      = { bus with nextCh := bus.nextCh + 1,
                   chanClosed := bus.nextCh :: bus.chanClosed } := by
  simp [EventBus.Subscribe, h]

theorem subscribe_snd_open {bus : EventBus} (T : String)
    (h : bus.closed = false) :
    (bus.Subscribe T).2
      = { bus with nextCh := bus.nextCh + 1,
                   subscribers := setTopic bus.subscribers T (bus.subsOf T ++ [bus.nextCh]) } := by
  simp [EventBus.Subscribe, h]

theorem unsubscribe_mem {bus : EventBus} {T : String} {ch : Chan}
    (h : ch ∈ bus.subsOf T) :
    bus.Unsubscribe T ch
      = { bus with subscribers := setTopic bus.subscribers T (removeFirst (bus.subsOf T) ch),
                   chanClosed := ch :: bus.chanClosed } := by
  simp [EventBus.Unsubscribe, h]

theorem unsubscribe_not_mem {bus : EventBus} {T : String} {ch : Chan}
    (h : ch ∉ bus.subsOf T) :
    bus.Unsubscribe T ch = bus := by
  simp [EventBus.Unsubscribe, h]

theorem close_of_closed {bus : EventBus} (h : bus.closed = true) :
    bus.Close = bus := by
  simp [EventBus.Close, h]

theorem close_not_closed {bus : EventBus} (h : bus.closed = false) :
    bus.Close
      = { subscribers := [], closed := true,
          quitFireCount := bus.quitFireCount + 1, nextCh := bus.nextCh,
          chanClosed := registryChans bus.subscribers ++ bus.chanClosed } := by
  simp [EventBus.Close, h]

theorem close_closed (bus : EventBus) : bus.Close.closed = true := by
  by_cases h : bus.closed = true
  · rw [close_of_closed h]; exact h
  · have h2 : bus.closed = false := by simpa using h
    rw [close_not_closed h2]

/- ### Step lemmas for operation traces -/

theorem applyOps_nil (bus : EventBus) : applyOps bus [] = bus := rfl

theorem applyOps_cons (bus : EventBus) (op : Op) (ops : List Op) :
    applyOps bus (op :: ops) = applyOps (stepOp bus op) ops := rfl

theorem topics_stepOp {bus : EventBus} {T : String} {op : Op}
    (h : T ∈ bus.Topics) (hop : op.isClose = false) :
    T ∈ (stepOp bus op).Topics := by
  cases op with
  | subscribe T2 =>
    simp only [stepOp]
    by_cases hc : bus.closed = true
    · rw [subscribe_snd_closed T2 hc]; exact h
    · have hc2 : bus.closed = false := by simpa using hc
      rw [subscribe_snd_open T2 hc2]
      exact mem_keys_setTopic_of_mem T2 _ h
  | unsubscribe T2 ch =>
    simp only [stepOp]
    by_cases hm : ch ∈ bus.subsOf T2
    · rw [unsubscribe_mem hm]
      exact mem_keys_setTopic_of_mem T2 _ h
    · rw [unsubscribe_not_mem hm]; exact h
  | publish T2 => simp only [stepOp]; rw [publish_fst]; exact h
  | publishSync T2 fails => simp only [stepOp]; rw [publishSync_fst]; exact h
  | close => simp [Op.isClose] at hop

theorem topics_applyOps {bus : EventBus} {T : String} {ops : List Op}
    (h : T ∈ bus.Topics) (hops : ∀ op ∈ ops, op.isClose = false) :
    T ∈ (applyOps bus ops).Topics := by
  induction ops generalizing bus with
  | nil => exact h
  | cons op rest ih =>
    rw [applyOps_cons]
    exact ih (topics_stepOp h (hops op (List.mem_cons_self _ _)))
      (fun op2 h2 => hops op2 (List.mem_cons_of_mem _ h2))

theorem closed_stepOp {bus : EventBus} (op : Op) (h : bus.closed = true) :
    (stepOp bus op).closed = true := by
  cases op with
  | subscribe T2 =>
    simp only [stepOp]
    rw [subscribe_snd_closed T2 h]; exact h
  | unsubscribe T2 ch =>
    simp only [stepOp]
    by_cases hm : ch ∈ bus.subsOf T2
    · rw [unsubscribe_mem hm]; exact h
    · rw [unsubscribe_not_mem hm]; exact h
  | publish T2 => simp only [stepOp]; rw [publish_fst]; exact h
  | publishSync T2 fails => simp only [stepOp]; rw [publishSync_fst]; exact h
  | close => simp only [stepOp]; rw [close_of_closed h]; exact h

theorem chans_stepOp {bus : EventBus} {op : Op} {x : Chan}
    (h : bus.closed = true)
    (hx : x ∈ registryChans (stepOp bus op).subscribers) :
    x ∈ registryChans bus.subscribers := by
  cases op with
  | subscribe T2 =>
    simp only [stepOp] at hx
    rw [subscribe_snd_closed T2 h] at hx
    exact hx
  | unsubscribe T2 ch =>
    simp only [stepOp] at hx
    by_cases hm : ch ∈ bus.subsOf T2
    · rw [unsubscribe_mem hm] at hx
      rcases mem_of_mem_registryChans_setTopic hx with h2 | h2
      · exact mem_registryChans_of_getTopic (mem_of_mem_removeFirst h2)
      · exact h2
    · rw [unsubscribe_not_mem hm] at hx; exact hx
  | publish T2 => simp only [stepOp] at hx; rw [publish_fst] at hx; exact hx
  | publishSync T2 fails =>
    simp only [stepOp] at hx; rw [publishSync_fst] at hx; exact hx
  | close =>
    simp only [stepOp] at hx; rw [close_of_closed h] at hx; exact hx

theorem chans_applyOps {bus : EventBus} {ops : List Op} {x : Chan}
    (h : bus.closed = true)
    (hx : x ∈ registryChans (applyOps bus ops).subscribers) :
    x ∈ registryChans bus.subscribers := by
  induction ops generalizing bus with
  | nil => exact hx
  | cons op rest ih =>
    rw [applyOps_cons] at hx
    exact chans_stepOp h (ih (closed_stepOp op h) hx)

theorem quit_stepOp {bus : EventBus} (op : Op)
    (h : bus.quitFireCount = if bus.closed then 1 else 0) :
    (stepOp bus op).quitFireCount
      = if (stepOp bus op).closed then 1 else 0 := by
  cases op with
  | subscribe T2 =>
    simp only [stepOp]
    by_cases hc : bus.closed = true
    · simp only [subscribe_snd_closed T2 hc]; exact h
    · have hc2 : bus.closed = false := by simpa using hc
      simp only [subscribe_snd_open T2 hc2]; exact h
  | unsubscribe T2 ch =>
    simp only [stepOp]
    by_cases hm : ch ∈ bus.subsOf T2
    · simp only [unsubscribe_mem hm]; exact h
    · simp only [unsubscribe_not_mem hm]; exact h
  | publish T2 => simp only [stepOp, publish_fst]; exact h
  | publishSync T2 fails => simp only [stepOp, publishSync_fst]; exact h
  | close =>
    simp only [stepOp]
    by_cases hc : bus.closed = true
    · simp only [close_of_closed hc]; exact h
    · have hc2 : bus.closed = false := by simpa using hc
      simp only [close_not_closed hc2]
      rw [hc2] at h
      simp only [Bool.false_eq_true, if_false] at h
      simp [h]

theorem quit_applyOps {bus : EventBus} (ops : List Op)
    (h : bus.quitFireCount = if bus.closed then 1 else 0) :
    (applyOps bus ops).quitFireCount
      = if (applyOps bus ops).closed then 1 else 0 := by
  induction ops generalizing bus with
  | nil => exact h
  | cons op rest ih =>
    rw [applyOps_cons]
    exact ih (quit_stepOp op h)

/- ### Claim theorems -/

/-- C1: once `Subscribe(T)` has been called on an open bus, the topic `T`
stays present in the result of `Topics()` across any further sequence of
operations that does not contain `Close` — in particular after every
subscriber of `T` has been removed by `Unsubscribe` — and in any state
whose `T`-slice is empty, `SubscriberCount(T)` returns 0. -/
theorem eventbus_c1_topic_persists_until_close (bus : EventBus) (T : String)
    (ops : List Op) (hopen : bus.closed = false)
    (hops : ∀ op ∈ ops, op.isClose = false) :
    T ∈ (applyOps ((bus.Subscribe T).2) ops).Topics ∧
    (∀ bus2 : EventBus, bus2.subsOf T = [] → bus2.SubscriberCount T = 0) := by
  constructor
  · refine topics_applyOps ?_ hops
    rw [subscribe_snd_open T hopen]
    exact mem_keys_setTopic_self bus.subscribers T _
  · intro bus2 h2
    simp [EventBus.SubscriberCount, h2]

/-- Witness for C1: subscribe twice on topic "A", then unsubscribe both
channels; "A" is still reported by `Topics`. -/
theorem eventbus_c1_witness :
    NewEventBus.closed = false ∧
    "A" ∈ (applyOps ((NewEventBus.Subscribe "A").2)
        [Op.subscribe "A", Op.unsubscribe "A" 1, Op.unsubscribe "A" 0]).Topics :=
  ⟨rfl,
   (eventbus_c1_topic_persists_until_close NewEventBus "A"
      [Op.subscribe "A", Op.unsubscribe "A" 1, Op.unsubscribe "A" 0] rfl
      (by simp [Op.isClose])).1⟩

/-- C2: on an open bus, `PublishSync` attempts every subscriber in its
snapshot (continuing past failures), its error list records exactly the
failing subscribers' positions in order, and it returns success when no
send fails, else the aggregate error carrying the total failure count and
the first recorded failure. -/
theorem eventbus_c2_publishsync_aggregates_failures (bus : EventBus)
    (T : String) (fails : Chan → Bool) (hopen : bus.closed = false) :
    (bus.PublishSync T fails).2.2 = bus.subsOf T ∧
    publishSyncErrs 0 (bus.subsOf T) fails
      = ((bus.subsOf T).enum.filter (fun p => fails p.2)).map Prod.fst ∧
    (publishSyncErrs 0 (bus.subsOf T) fails = [] →
      (bus.PublishSync T fails).2.1 = SyncResult.ok) ∧
    (∀ e rest, publishSyncErrs 0 (bus.subsOf T) fails = e :: rest →
      (bus.PublishSync T fails).2.1
        = SyncResult.aggregate (e :: rest).length e) := by
  refine ⟨publishSync_attempted T fails hopen, ?_,
    fun he => publishSync_result_ok hopen he,
    fun e rest he => publishSync_result_aggregate hopen he⟩
  rw [publishSyncErrs_eq_enumFrom]
  rfl

/-- Witness for C2: two subscribers on "t", the send to channel 1 (at
position 1) fails; both sends are attempted and the aggregate error
reports one failure whose first cause is position 1. -/
theorem eventbus_c2_witness :
    (((NewEventBus.Subscribe "t").2.Subscribe "t").2).closed = false ∧
    ((((NewEventBus.Subscribe "t").2.Subscribe "t").2).PublishSync "t"
        (fun ch => ch == 1)).2.1 = SyncResult.aggregate 1 1 ∧
    ((((NewEventBus.Subscribe "t").2.Subscribe "t").2).PublishSync "t"
        (fun ch => ch == 1)).2.2 = [0, 1] := by
  refine ⟨rfl, ?_, ?_⟩
  · exact (eventbus_c2_publishsync_aggregates_failures
      ((NewEventBus.Subscribe "t").2.Subscribe "t").2 "t" (fun ch => ch == 1)
      rfl).2.2.2 1 [] (by decide)
  · rw [(eventbus_c2_publishsync_aggregates_failures
      ((NewEventBus.Subscribe "t").2.Subscribe "t").2 "t" (fun ch => ch == 1)
      rfl).1]
    decide

/-- C3: `PublishSync` returns the bus-closed error if and only if the bus
is closed at call time, and in that case it returns at once with no send
attempted and the bus state unchanged. -/
theorem eventbus_c3_publishsync_closed_error (bus : EventBus) (T : String)
    (fails : Chan → Bool) :
    ((bus.PublishSync T fails).2.1 = SyncResult.busClosed ↔ bus.closed = true) ∧
    (bus.closed = true →
      bus.PublishSync T fails = (bus, SyncResult.busClosed, [])) := by
  constructor
  · constructor
    · intro hres
      by_contra hc
      have h2 : bus.closed = false := by simpa using hc
      exact publishSync_ne_busClosed T fails h2 hres
    · intro hc
      rw [publishSync_closed T fails hc]
  · intro hc
    exact publishSync_closed T fails hc

/-- Witness for C3 on a closed bus: the call returns the closed-bus
result, attempts nothing and leaves the state untouched. -/
theorem eventbus_c3_witness :
    NewEventBus.Close.closed = true ∧
    NewEventBus.Close.PublishSync "t" (fun _ => false)
      = (NewEventBus.Close, SyncResult.busClosed, []) :=
  ⟨rfl, (eventbus_c3_publishsync_closed_error NewEventBus.Close "t"
      (fun _ => false)).2 rfl⟩

/-- C4: after `Close()` on a not-yet-closed bus, `Topics()` is empty,
`SubscriberCount` is 0 for every topic, and every endpoint that was in
the registry has been terminated. -/
theorem eventbus_c4_close_clears_registry (bus : EventBus)
    (h : bus.closed = false) :
    bus.Close.Topics = [] ∧
    (∀ t, bus.Close.SubscriberCount t = 0) ∧
    (∀ ch, ch ∈ registryChans bus.subscribers → ch ∈ bus.Close.chanClosed) := by
  simp only [close_not_closed h]
  refine ⟨rfl, fun t => rfl, fun ch hch => ?_⟩
  exact List.mem_append_left _ hch

/-- Witness for C4: close a bus holding one subscriber on "t". -/
theorem eventbus_c4_witness :
    ((NewEventBus.Subscribe "t").2).closed = false ∧
    ((NewEventBus.Subscribe "t").2).Close.Topics = [] ∧
    ((NewEventBus.Subscribe "t").2).Close.SubscriberCount "t" = 0 ∧
    0 ∈ ((NewEventBus.Subscribe "t").2).Close.chanClosed :=
  ⟨rfl,
   (eventbus_c4_close_clears_registry (NewEventBus.Subscribe "t").2 rfl).1,
   (eventbus_c4_close_clears_registry (NewEventBus.Subscribe "t").2 rfl).2.1 "t",
   (eventbus_c4_close_clears_registry (NewEventBus.Subscribe "t").2 rfl).2.2 0
     (by decide)⟩

/-- C5: on a closed bus, `Subscribe` returns a fresh endpoint that is
already terminated and adds nothing to the registry; and once the bus is
closed, no operation sequence ever adds a new endpoint to the registry. -/
theorem eventbus_c5_subscribe_after_close (bus : EventBus) (T : String)
    (h : bus.closed = true) :
    ((bus.Subscribe T).2).subscribers = bus.subscribers ∧
    (bus.Subscribe T).1 ∈ ((bus.Subscribe T).2).chanClosed ∧
    ((∀ c ∈ registryChans bus.subscribers, c < bus.nextCh) →
      (bus.Subscribe T).1 ∉ registryChans bus.subscribers) ∧
    (∀ ops : List Op, ∀ ch : Chan,
      ch ∈ registryChans (applyOps bus ops).subscribers →
      ch ∈ registryChans bus.subscribers) := by
  refine ⟨?_, ?_, ?_, fun ops ch hch => chans_applyOps h hch⟩
  · rw [subscribe_snd_closed T h]
  · rw [subscribe_snd_closed T h, subscribe_fst]
    exact List.mem_cons_self _ _
  · intro hbound hmem
    rw [subscribe_fst] at hmem
    exact absurd (hbound _ hmem) (lt_irrefl _)

/-- Witness for C5: subscribe on a closed bus; the returned endpoint is
terminated at birth and the registry is untouched. -/
theorem eventbus_c5_witness :
    NewEventBus.Close.closed = true ∧
    ((NewEventBus.Close.Subscribe "t").2).subscribers
      = NewEventBus.Close.subscribers ∧
    (NewEventBus.Close.Subscribe "t").1
      ∈ ((NewEventBus.Close.Subscribe "t").2).chanClosed :=
  ⟨rfl,
   (eventbus_c5_subscribe_after_close NewEventBus.Close "t" rfl).1,
   (eventbus_c5_subscribe_after_close NewEventBus.Close "t" rfl).2.1⟩

/-- C6: `Close` is idempotent — a second `Close` is a no-op on the bus
state — and over any lifetime of operations starting from a fresh bus the
shutdown signal has been fired exactly once if the bus is closed and
never otherwise. -/
theorem eventbus_c6_close_idempotent :
    (∀ bus : EventBus, bus.Close.Close = bus.Close) ∧
    (∀ ops : List Op,
      (applyOps NewEventBus ops).quitFireCount
        = if (applyOps NewEventBus ops).closed then 1 else 0) := by
  constructor
  · intro bus
    exact close_of_closed (close_closed bus)
  · intro ops
    exact quit_applyOps ops rfl

/-- Witness for C6: closing twice equals closing once, and after two
`Close` calls the quit signal has been fired exactly once. -/
theorem eventbus_c6_witness :
    NewEventBus.Close.Close = NewEventBus.Close ∧
    (applyOps NewEventBus [Op.close, Op.close]).quitFireCount = 1 := by
  constructor
  · exact eventbus_c6_close_idempotent.1 NewEventBus
  · rw [eventbus_c6_close_idempotent.2 [Op.close, Op.close]]
    decide

/-- C7: `Unsubscribe` is a no-op whenever no endpoint with matching
identity is in the topic's slice, and (for slices without duplicate
identities, the only ones `Subscribe` ever builds) unsubscribing the same
pair twice equals unsubscribing it once. -/
theorem eventbus_c7_unsubscribe_idempotent (bus : EventBus) (T : String)
    (ch : Chan) :
    (ch ∉ bus.subsOf T → bus.Unsubscribe T ch = bus) ∧
    ((bus.subsOf T).count ch ≤ 1 →
      (bus.Unsubscribe T ch).Unsubscribe T ch = bus.Unsubscribe T ch) := by
  constructor
  · exact fun h => unsubscribe_not_mem h
  · intro hcount
    by_cases hm : ch ∈ bus.subsOf T
    · have hsub : (bus.Unsubscribe T ch).subsOf T
          = removeFirst (bus.subsOf T) ch := by
        rw [unsubscribe_mem hm]
        exact getTopic_setTopic_self _ _ _
      apply unsubscribe_not_mem
      rw [hsub]
      exact not_mem_removeFirst hcount
    · rw [unsubscribe_not_mem hm]
      exact unsubscribe_not_mem hm

/-- Witness for C7: unsubscribing channel 0 from the wrong topic "x" is a
no-op, and unsubscribing it twice from "t" equals unsubscribing once. -/
theorem eventbus_c7_witness :
    ((NewEventBus.Subscribe "t").2).Unsubscribe "x" 0
      = (NewEventBus.Subscribe "t").2 ∧
    (((NewEventBus.Subscribe "t").2).Unsubscribe "t" 0).Unsubscribe "t" 0
      = ((NewEventBus.Subscribe "t").2).Unsubscribe "t" 0 :=
  ⟨(eventbus_c7_unsubscribe_idempotent (NewEventBus.Subscribe "t").2 "x" 0).1
     (by decide),
   (eventbus_c7_unsubscribe_idempotent (NewEventBus.Subscribe "t").2 "t" 0).2
     (by decide)⟩

/-- C8: a topic's slice is kept in registration order — `Subscribe`
appends at the end, `Unsubscribe` removes only the matched endpoint
keeping the remainder's relative order, and one `PublishSync` call
attempts the snapshot in exactly that order. -/
theorem eventbus_c8_registration_order (bus : EventBus) (T : String)
    (ch : Chan) (l1 l2 : List Chan) (fails : Chan → Bool)
    (hopen : bus.closed = false) :
    ((bus.Subscribe T).2).subsOf T = bus.subsOf T ++ [bus.nextCh] ∧
    (bus.subsOf T = l1 ++ ch :: l2 → ch ∉ l1 →
      (bus.Unsubscribe T ch).subsOf T = l1 ++ l2) ∧
    (bus.PublishSync T fails).2.2 = bus.subsOf T := by
  refine ⟨?_, ?_, publishSync_attempted T fails hopen⟩
  · rw [subscribe_snd_open T hopen]
    exact getTopic_setTopic_self _ _ _
  · intro hsub hnot
    have hm : ch ∈ bus.subsOf T := by
      rw [hsub]
      exact List.mem_append_right _ (List.mem_cons_self _ _)
    have h1 : (bus.Unsubscribe T ch).subsOf T
        = removeFirst (bus.subsOf T) ch := by
      rw [unsubscribe_mem hm]
      exact getTopic_setTopic_self _ _ _
    rw [h1, hsub]
    exact removeFirst_append hnot

/-- Witness for C8 on a bus with subscribers 0 and 1 on "t": a third
subscribe appends channel 2, unsubscribing channel 1 leaves [0], and a
sync publish attempts [0, 1] in order. -/
theorem eventbus_c8_witness :
    (((NewEventBus.Subscribe "t").2.Subscribe "t").2).closed = false ∧
    (((((NewEventBus.Subscribe "t").2.Subscribe "t").2).Subscribe "t").2).subsOf "t"
      = [0, 1, 2] ∧
    ((((NewEventBus.Subscribe "t").2.Subscribe "t").2).Unsubscribe "t" 1).subsOf "t"
      = [0] ∧
    ((((NewEventBus.Subscribe "t").2.Subscribe "t").2).PublishSync "t"
        (fun _ => false)).2.2 = [0, 1] := by
  refine ⟨rfl, ?_, ?_, ?_⟩
  · rw [(eventbus_c8_registration_order
      ((NewEventBus.Subscribe "t").2.Subscribe "t").2 "t" 1 [0] []
      (fun _ => false) rfl).1]
    decide
  · have h := (eventbus_c8_registration_order
      ((NewEventBus.Subscribe "t").2.Subscribe "t").2 "t" 1 [0] []
      (fun _ => false) rfl).2.1 (by decide) (by decide)
    simpa using h
  · rw [(eventbus_c8_registration_order
      ((NewEventBus.Subscribe "t").2.Subscribe "t").2 "t" 1 [0] []
      (fun _ => false) rfl).2.2]
    decide

/-- C9: on a closed bus, `Publish` is a silent no-op for every topic and
payload — no delivery task is started and the bus state is unchanged. -/
theorem eventbus_c9_publish_noop_after_close {α : Type} (bus : EventBus)
    (T : String) (data : α) (h : bus.closed = true) :
    bus.Publish T data = (bus, []) := by
  simp [EventBus.Publish, h]

/-- Witness for C9: publishing 42 on a closed bus starts nothing. -/
theorem eventbus_c9_witness :
    NewEventBus.Close.closed = true ∧
    NewEventBus.Close.Publish "t" (42 : Nat) = (NewEventBus.Close, []) :=
  ⟨rfl, eventbus_c9_publish_noop_after_close NewEventBus.Close "t" 42 rfl⟩

/-- C10: on an open bus, `PublishSync` to a topic with no subscribers
(including a never-subscribed topic) returns success with no send
attempted. -/
theorem eventbus_c10_publishsync_empty_topic_ok (bus : EventBus)
    (T : String) (fails : Chan → Bool) (h1 : bus.closed = false)
    (h2 : bus.subsOf T = []) :
    bus.PublishSync T fails = (bus, SyncResult.ok, []) := by
  rw [publishSync_open T fails h1, h2]
  rfl

/-- Witness for C10: a bus with a subscriber on "t" sync-publishes to the
never-subscribed topic "u" and gets success. -/
theorem eventbus_c10_witness :
    ((NewEventBus.Subscribe "t").2).closed = false ∧
    ((NewEventBus.Subscribe "t").2).subsOf "u" = [] ∧
    (NewEventBus.Subscribe "t").2.PublishSync "u" (fun _ => false)
      = ((NewEventBus.Subscribe "t").2, SyncResult.ok, []) :=
  ⟨rfl, by decide,
   eventbus_c10_publishsync_empty_topic_ok (NewEventBus.Subscribe "t").2 "u"
     (fun _ => false) rfl (by decide)⟩
